import Mathlib

/-!
Shallow embedding of the iterative evidence orchestration engine of the
`research_agent` repository, together with proofs about its data model and
algorithms.

Python dictionaries are embedded as association lists (`List (String × β)`)
whose keys are unique by construction (they are only ever extended through
`setdefault`-style operations starting from the empty dict), `dict.get(k, d)`
becomes `(alookup m k).getD d`, and iteration order over a dict is the list
order (Python dicts iterate in insertion order).
-/

namespace ResearchAgent

/-- Lookup in an association list, mirroring Python `dict.get(k)` /
`k in dict` on dicts embedded as lists of key-value pairs. -/
def alookup {β : Type} : List (String × β) → String → Option β
  | [], _ => none
  | p :: rest, k => if p.1 = k then some p.2 else alookup rest k

/-- In-place update of the value stored at key `k` (Python `d[k] = f(d[k])`).
Entries whose key differs from `k` are untouched. -/
def updateAt {β : Type} (s : List (String × β)) (k : String) (f : β → β) :
    List (String × β) :=
  s.map (fun p => if p.1 = k then (p.1, f p.2) else p)

/-! ## Agreement scorer — `scoring/agreement_scorer.py` -/

/-- `AGREEMENT_WEIGHTS` of `scoring/agreement_scorer.py` as a total function:
Python reads the table with `AGREEMENT_WEIGHTS.get(label, 0)`, so an unknown
label weighs 0. -/
def AGREEMENT_WEIGHTS (label : String) : Nat :=
  if label = "strongly_supports" then 5
  else if label = "partially_supports" then 3
  else if label = "independent" then 1
  else 0

/-- The agreement map returned by the agreement detector:
`{src: {tgt: label}}` embedded as an association list of association lists. -/
abbrev AgreementMap := List (String × List (String × String))

/-- Python `scores.setdefault(k, 0)`: add `k ↦ 0` only when `k` is absent. -/
def setdefaultZero (scores : List (String × Nat)) (k : String) :
    List (String × Nat) :=
  match alookup scores k with
  | some _ => scores
  | none => scores ++ [(k, 0)]

/-- First loop of `compute_agreement_scores`, generalized over the starting
accumulator: initialize a 0 score entry for every id mentioned in the map. -/
def initScoresFrom (s : List (String × Nat)) (m : AgreementMap) :
    List (String × Nat) :=
  m.foldl
    (fun acc p => p.2.foldl (fun a q => setdefaultZero a q.1)
      (setdefaultZero acc p.1))
    s

/-- Python `scores[tgt] += w` (the key is guaranteed present by the first
loop of `compute_agreement_scores`). -/
def addWeight (scores : List (String × Nat)) (k : String) (w : Nat) :
    List (String × Nat) :=
  updateAt scores k (· + w)

/-- Second loop of `compute_agreement_scores`, generalized over the starting
accumulator: add the weight of every relation to its target's entry. -/
def accumulateFrom (s : List (String × Nat)) (m : AgreementMap) :
    List (String × Nat) :=
  m.foldl
    (fun acc p =>
      p.2.foldl (fun a q => addWeight a q.1 (AGREEMENT_WEIGHTS q.2)) acc)
    s

/-- `compute_agreement_scores` of `scoring/agreement_scorer.py`: every id
mentioned in the map gets a 0 entry, then every relation `(src, tgt, label)`
adds `AGREEMENT_WEIGHTS label` to `tgt`'s accumulator. -/
def compute_agreement_scores (m : AgreementMap) : List (String × Nat) :=
  accumulateFrom (initScoresFrom [] m) m

/-- Whether id `x` is mentioned anywhere in the agreement map, as a source
key or as a target key. -/
def mentions (m : AgreementMap) (x : String) : Bool :=
  m.any (fun p => p.1 = x || p.2.any (fun q => q.1 = x))

/-- Total incoming weight of id `x` from one source's relation dict. -/
def incomingWeight (x : String) (rels : List (String × String)) : Nat :=
  ((rels.filter (fun q => q.1 = x)).map
    (fun q => AGREEMENT_WEIGHTS q.2)).sum

/-- Total incoming weight of id `x` over the whole agreement map: the sum of
the weights of all relations whose target is `x`. -/
def incomingSum (m : AgreementMap) (x : String) : Nat :=
  (m.map (fun p => incomingWeight x p.2)).sum

/-! ## Conflict resolver — `analytics/conflict_resolver.py` -/

/-- One entry of the conflict detector's `conflicts` list: the summary ids
involved and the verbatim conflicting claim from each side. -/
structure Conflict where
  ids : List String
  claim_a : String
  claim_b : String
deriving Repr, DecidableEq

/-- Python `removals.setdefault(loser, []).append(claim)`: append `claim` to
`loser`'s removal list, creating the entry when absent. -/
def appendRemoval (removals : List (String × List String))
    (loser claim : String) : List (String × List String) :=
  match alookup removals loser with
  | some _ => updateAt removals loser (fun l => l ++ [claim])
  | none => removals ++ [(loser, [claim])]

/-- Loop body of `resolve_conflicts`: skip a record without exactly two ids,
fetch both scores with default 0 (`scores.get(s, 0)`), take no action on a
tie, otherwise append the strictly lower-scoring side's claim to that id's
removal list. -/
def resolveStep (scores : List (String × Int))
    (removals : List (String × List String)) (conflict : Conflict) :
    List (String × List String) :=
  match conflict.ids with
  | [s1, s2] =>
    let score1 : Int := (alookup scores s1).getD 0
    let score2 : Int := (alookup scores s2).getD 0
    if score1 = score2 then removals
    else if score1 > score2 then appendRemoval removals s2 conflict.claim_b
    else appendRemoval removals s1 conflict.claim_a
  | _ => removals

/-- `resolve_conflicts` of `analytics/conflict_resolver.py`. The first
argument is the `conflicts` list of the detector payload (Python reads it
with `conflicts.get("conflicts", [])`); the second is the total-score map.
The RemovalPlan accumulates in conflict order starting from the empty
dict. -/
def resolve_conflicts (conflicts : List Conflict)
    (scores : List (String × Int)) : List (String × List String) :=
  conflicts.foldl (resolveStep scores) []

/-! ## Agreement detector validation — `analytics/agreement_detector.py` -/

/-- `ALLOWED_LABELS` of `analytics/agreement_detector.py`. -/
def ALLOWED_LABELS : List String :=
  ["strongly_supports", "partially_supports", "independent"]

/-- Inner validation loop of `detect_agreements` over one source's
relations: unknown target, self-relation and invalid label each raise, in
that order. -/
def checkRels (ids : List String) (src : String) :
    List (String × String) → Except String Unit
  | [] => .ok ()
  | q :: rest =>
    if q.1 ∉ ids then .error ("Unknown target ID: " ++ q.1)
    else if src = q.1 then .error "Self-relations are not allowed"
    else if q.2 ∉ ALLOWED_LABELS then
      .error ("Invalid agreement label: " ++ q.2)
    else checkRels ids src rest

/-- Outer validation loop of `detect_agreements` over the parsed response:
an unknown source id raises, then the source's relations are validated.
(The `isinstance(relations, dict)` check cannot fail in this typed
embedding.) -/
def checkAll (ids : List String) : AgreementMap → Except String Unit
  | [] => .ok ()
  | p :: rest =>
    if p.1 ∉ ids then .error ("Unknown source ID: " ++ p.1)
    else
      match checkRels ids p.1 p.2 with
      | .error e => .error e
      | .ok _ => checkAll ids rest

/-- Validation phase of `detect_agreements`: given the run's summary ids
and the parsed LLM response, raise on the first violation, otherwise return
the parsed data unchanged. -/
def detect_agreements_validated (ids : List String) (data : AgreementMap) :
    Except String AgreementMap :=
  match checkAll ids data with
  | .error e => .error e
  | .ok _ => .ok data

/-- The property `detect_agreements` validation enforces: every source and
target id exists, no self-relations, only allowed labels. -/
def ValidAgreement (ids : List String) (data : AgreementMap) : Prop :=
  ∀ p ∈ data, p.1 ∈ ids ∧
    ∀ q ∈ p.2, q.1 ∈ ids ∧ p.1 ≠ q.1 ∧ q.2 ∈ ALLOWED_LABELS

/-! ## Intent selector — `query/intent_selector.py` -/

/-- Python `parsed.setdefault(k, None)` on the selected-intents dict. -/
def setdefaultNone (d : List (String × Option String)) (k : String) :
    List (String × Option String) :=
  match alookup d k with
  | some _ => d
  | none => d ++ [(k, none)]

/-- The `Ensure all expected keys exist` loop of `select_best_intents`:
`parsed.setdefault(f"Q{i+1}", None)` for `i in range(len(subqueries))`. -/
def ensureKeys (n : Nat) (d : List (String × Option String)) :
    List (String × Option String) :=
  (List.range n).foldl
    (fun acc i => setdefaultNone acc ("Q" ++ toString (i + 1))) d

/-- Tail of `select_best_intents` of `query/intent_selector.py` after the
LLM call, as a function of the outcome of `json.loads` on the cleaned
reply (`n` is `len(subqueries)`): a parse failure fail-safes to mapping
every expected query key to `None` (no reuse); on success the parsed dict
is returned with missing keys defaulted to `None`. -/
def select_best_intents_post (n : Nat)
    (parsed : Option (List (String × Option String))) :
    List (String × Option String) :=
  match parsed with
  | none => (List.range n).map (fun i => ("Q" ++ toString (i + 1), none))
  | some d => ensureKeys n d

/-! ## Vector store — `vector_store/client.py` -/

/-- One stored metadata record of the FAISS-backed store; `embedding` is
the vector added to the index. -/
structure VSRecord where
  embedding : List Float
  query_text : String
  summary : String
  url : Option String

/-- The persistent vector store: the FAISS index modeled as the list of
its vectors (so `index.ntotal` is the list length) together with the
parallel metadata list. -/
structure VectorStore where
  index : List (List Float)
  metadata : List VSRecord

/-- `VectorStoreClient.upsert`: a no-op on an empty batch (`if not
records: return`), otherwise append all records' embeddings to the index
and the records themselves to the metadata list (then persist both). -/
def VectorStore.upsert (s : VectorStore) (records : List VSRecord) :
    VectorStore :=
  if records.isEmpty then s
  else
    { index := s.index ++ records.map (fun r => r.embedding),
      metadata := s.metadata ++ records }

/-- A fresh store: an `IndexFlatIP` with no vectors and empty metadata. -/
def VectorStore.emptyStore : VectorStore := { index := [], metadata := [] }

/-- `VectorStoreClient._load_or_create`: reload index and metadata from
disk (an absent file means the empty index / empty list), then fail when
the counts disagree — the mismatch is never repaired. -/
def VectorStore.load_or_create (diskIndex : Option (List (List Float)))
    (diskMeta : Option (List VSRecord)) : Except String VectorStore :=
  let index := diskIndex.getD []
  let metadata := diskMeta.getD []
  if index.length ≠ metadata.length then
    .error "FAISS index and metadata out of sync."
  else .ok { index := index, metadata := metadata }

/-! ## Discovery controller — `controller/run.py`

The controller is embedded as a state machine over `RunState`. External
collaborators (LLM calls, web search and extraction, the sentence
embedder folded into the vector-search oracle, and the credibility
dataset behind `compute_summary_score`) are oracle functions gathered in
`Env`; theorems quantify over all oracles. Trace logging, the record's
`embedding` field and the store upsert on the ingestion path (the store
is only read back through the `vector_search` oracle) are not tracked. -/

/-- Constants of `config.py`. -/
def MIN_RAW_CHARS : Nat := 1200

/-- Constants of `config.py`. -/
def MAX_RAW_CHARS : Nat := 8000

/-- Constants of `config.py`. -/
def VECTOR_TOP_K : Nat := 10

/-- Constants of `config.py`. -/
def CROSS_TOP_K : Nat := 5

/-- `MODES` of `config.py`: mode name to (iterations,
queries_per_iteration). -/
def MODES : List (String × Nat × Nat) :=
  [("quick", (1, 2)), ("standard", (2, 2)), ("deep", (3, 2))]

/-- A stored candidate record as returned by `VectorSearcher.search`
(`retrieval/vector_search.py` normalizes exactly these fields; `url` and
the other metadata fields may be absent, hence `Option`). -/
structure Hit where
  query_text : String
  summary : String
  url : Option String
  domain : Option String
  author : Option String
  venue_type : Option String
  date_published : Option String
  date_retrieved : Option String
deriving Repr, DecidableEq

/-- One accumulated evidence record of the run (`summaries` list entries).
In Python the dict gains `agreement_score` / `total_score` keys only in
the scoring phase; here they are carried from creation with value 0. -/
structure Record where
  id : String
  query_text : String
  summary : String
  url : Option String
  domain : Option String
  author : Option String
  venue_type : Option String
  date_published : Option String
  date_retrieved : Option String
  credibility_score : Int
  agreement_score : Int
  total_score : Int
deriving Repr, DecidableEq

/-- One `search_web` result (only its `url` is consumed by the
controller). -/
structure WebResult where
  url : Option String
deriving Repr, DecidableEq

/-- Outcome of `tavily_extract`. -/
structure Extracted where
  raw_text : Option String
  domain : Option String
deriving Repr, DecidableEq

/-- Outcome of `extract_metadata`. -/
structure MetaInfo where
  author : Option String
  date_published : Option String
deriving Repr, DecidableEq

/-- Outcome of `generate_research_plan`. -/
structure Plan where
  goal : String
  dimensions : List String
deriving Repr, DecidableEq

/-- External collaborators consumed by the discovery loop. -/
structure Env where
  plan : String → Plan
  gen_initial : String → String → List String → Nat → List String
  refine : Plan → List (String × String) → Nat → List String
  vector_search : Nat → String → List Hit
  rerank : String → List (String × Hit) → Nat → List (String × Hit)
  judge : List (String × String) → List (String × List (String × String)) →
    List (String × Option String)
  search_web : String → List WebResult
  tavily_extract : String → Option Extracted
  extract_metadata : String → MetaInfo
  generate_summary : String → String → String
  normalize_date : Option String → Option String
  today : String
  cred_score : Record → Int

/-- Mutable state of the discovery loop: the accumulated summaries, the
run's seen-URL set (a duplicate-free list), and the id counter. -/
structure RunState where
  summaries : List Record
  seen : List (Option String)
  sid : Nat
deriving Repr

/-- `seen_urls.add(u)` on the set embedded as a duplicate-free list. -/
def addSeen (seen : List (Option String)) (u : Option String) :
    List (Option String) :=
  if u ∈ seen then seen else seen ++ [u]

/-- Reuse path clone: `r = record.copy(); r["id"] = f"S{sid}"`; the
credibility score is recomputed afterwards by the caller. -/
def cloneHit (h : Hit) (rid : String) : Record :=
  { id := rid, query_text := h.query_text, summary := h.summary,
    url := h.url, domain := h.domain, author := h.author,
    venue_type := h.venue_type, date_published := h.date_published,
    date_retrieved := h.date_retrieved, credibility_score := 0,
    agreement_score := 0, total_score := 0 }

/-- The record built on the web-ingestion path once a result is accepted:
truncation to `MAX_RAW_CHARS`, metadata extraction, provider choice by
mode, summary generation, then the credibility score computed on the
fresh record. -/
def ingestRecord (env : Env) (mode : String) (sid : Nat)
    (qtext u : String) (e : Extracted) (t : String) : Record :=
  let raw := if t.length > MAX_RAW_CHARS then t.take MAX_RAW_CHARS else t
  let meta := env.extract_metadata u
  let provider := if mode = "quick" then "groq" else "openrouter"
  let record : Record :=
    { id := "S" ++ toString sid, query_text := qtext,
      summary := env.generate_summary raw provider, url := some u,
      domain := e.domain, author := meta.author, venue_type := none,
      date_published := env.normalize_date meta.date_published,
      date_retrieved := some env.today, credibility_score := 0,
      agreement_score := 0, total_score := 0 }
  { record with credibility_score := env.cred_score record }

/-- Processing of one web search result inside the ingestion loop of
`run_pipeline`: reject on missing/empty URL, already-seen URL, failed
extraction or insufficient content; otherwise accept the built record
(the Python loop then `break`s). Returns the updated state on acceptance,
`none` on rejection. -/
def webIngestResult (env : Env) (mode : String) (s : RunState)
    (qtext : String) (wr : WebResult) : Option RunState :=
  match wr.url with
  | none => none
  | some u =>
    if u = "" then none
    else if (some u) ∈ s.seen then none
    else
      match env.tavily_extract u with
      | none => none
      | some e =>
        match e.raw_text with
        | none => none
        | some t =>
          if t.length < MIN_RAW_CHARS then none
          else
            some { summaries :=
                     s.summaries ++ [ingestRecord env mode s.sid qtext u e t],
                   seen := addSeen s.seen (some u), sid := s.sid + 1 }

/-- The `for idx, r in enumerate(results, 1)` loop of web ingestion: the
first accepted result wins (`break`); no acceptance leaves the state
unchanged. -/
def webIngestLoop (env : Env) (mode : String) (s : RunState)
    (qtext : String) : List WebResult → RunState
  | [] => s
  | wr :: rest =>
    match webIngestResult env mode s qtext wr with
    | some s2 => s2
    | none => webIngestLoop env mode s qtext rest

/-- Fresh web ingestion for one query: `search_web(qtext, max_results=3)`
followed by the acceptance loop. -/
def webIngestQuery (env : Env) (mode : String) (s : RunState)
    (qtext : String) : RunState :=
  webIngestLoop env mode s qtext (env.search_web qtext)

/-- `selected_intents.get(qkey)`: an absent key and a stored `None` both
yield `None`. -/
def getSelected (selected : List (String × Option String)) (k : String) :
    Option String :=
  match alookup selected k with
  | some v => v
  | none => none

/-- The record built on the reuse path: the clone under a fresh id with
its credibility score recomputed (`r["credibility_score"] =
compute_summary_score(r)`). -/
def reuseRecord (env : Env) (sid : Nat) (h : Hit) : Record :=
  let r := cloneHit h ("S" ++ toString sid)
  { r with credibility_score := env.cred_score r }

/-- The reuse-or-ingest body of `run_pipeline` for one `(qkey, qtext)`
pair: when the judge selected a candidate id (a non-empty string — Python
truthiness) for a query that has surviving candidates, and that id
resolves to a record whose URL is still unseen, the record is cloned under
a fresh id, scored, appended, and its URL marked seen; every other case
falls through to fresh web ingestion. -/
def processQuery (env : Env) (mode : String)
    (retrieved : List (String × List (String × Hit)))
    (selected : List (String × Option String))
    (s : RunState) (q : String × String) : RunState :=
  match getSelected selected q.1 with
  | some vid =>
    if vid ≠ "" ∧ (alookup retrieved q.1).isSome then
      match alookup ((alookup retrieved q.1).getD []) vid with
      | some h =>
        if h.url ∉ s.seen then
          { summaries := s.summaries ++ [reuseRecord env s.sid h],
            seen := addSeen s.seen h.url, sid := s.sid + 1 }
        else webIngestQuery env mode s q.2
      | none => webIngestQuery env mode s q.2
    else webIngestQuery env mode s q.2
  | none => webIngestQuery env mode s q.2

/-- `f"VS_{i:02d}"` keys for the surviving hits, 1-based (the two-digit
padding only changes the spelling of a key; keys stay pairwise distinct
either way). -/
def vsKeyed (hits : List Hit) : List (String × Hit) :=
  hits.enum.map (fun p => ("VS_" ++ toString (p.1 + 1), p.2))

/-- Per-round candidate retrieval of `run_pipeline`: vector search for
each query, drop hits whose URL is already seen, skip the query entirely
when nothing survives, otherwise rerank the keyed survivors with the
cross-encoder. -/
def retrieveCandidates (env : Env) (seen : List (Option String))
    (queries : List (String × String)) :
    List (String × List (String × Hit)) :=
  queries.filterMap (fun q =>
    let hits := (env.vector_search VECTOR_TOP_K q.2).filter
      (fun h => h.url ∉ seen)
    if hits.isEmpty then none
    else some (q.1, env.rerank q.2 (vsKeyed hits) CROSS_TOP_K))

/-- `candidates_for_llm`: drop queries whose reranked candidate dict is
empty and keep only the stored query texts. -/
def candidatesForLLM (retrieved : List (String × List (String × Hit))) :
    List (String × List (String × String)) :=
  retrieved.filterMap (fun p =>
    if p.2.isEmpty then none
    else some (p.1, p.2.map (fun c => (c.1, c.2.query_text))))

/-- `subq_map`: `Q1..` keys for the round's queries. -/
def subqMap (queries : List String) : List (String × String) :=
  queries.enum.map (fun p => ("Q" ++ toString (p.1 + 1), p.2))

/-- One discovery round of `run_pipeline`: retrieve candidates for every
query against the current seen set, ask the judge once, then run the
reuse-or-ingest body over the queries in order. -/
def processRound (env : Env) (mode : String) (s : RunState)
    (queries : List String) : RunState :=
  let sm := subqMap queries
  let retrieved := retrieveCandidates env s.seen sm
  let selected := env.judge sm (candidatesForLLM retrieved)
  sm.foldl (processQuery env mode retrieved selected) s

/-- Query source for round `i + 1`: round 1 queries come from the initial
generator, later rounds from the coverage refiner seeded with the
summaries so far. -/
def roundQueries (env : Env) (user_query : String) (plan : Plan)
    (queries_per_iteration : Nat) (s : RunState) (i : Nat) : List String :=
  if i + 1 = 1 then
    env.gen_initial user_query plan.goal plan.dimensions
      queries_per_iteration
  else
    env.refine plan (s.summaries.map (fun r => (r.id, r.summary)))
      queries_per_iteration

/-- The iterative discovery phase of `run_pipeline`: for each
`iteration in range(1, max_iterations + 1)` generate the round's queries
and run the round; state starts empty with `sid_counter = 1`. -/
def runDiscovery (env : Env) (mode user_query : String) (plan : Plan)
    (iterations queries_per_iteration : Nat) : RunState :=
  (List.range iterations).foldl
    (fun s i =>
      processRound env mode s
        (roundQueries env user_query plan queries_per_iteration s i))
    { summaries := [], seen := [], sid := 1 }

/-- The analytic/report external calls issued after the discovery loop. -/
inductive PhaseCall where
  | agreement
  | conflict
  | rewrite
  | report
  | evaluationCall
deriving Repr, DecidableEq

/-- External collaborators consumed after the discovery loop. -/
structure AnalysisEnv where
  agreement_llm : List (String × String) → AgreementMap
  conflict_llm : List (String × String) → List Conflict
  rewrite_llm : List (String × String × List String) →
    List (String × String)
  references : List Record → List String
  title_headings : String → List String → String × List String
  write_report : String → List String → List (String × String) →
    List String → String
  generate_pdf : String → String → String
  evaluate : String → Plan → String → List (String × String) →
    List String → List String → String
  timestamp : Nat

/-- Scoring-phase field updates on one record:
`s["agreement_score"] = agreement_scores.get(s["id"], 0)` and
`s["total_score"] = s.get("credibility_score", 0) + s["agreement_score"]`. -/
def setScores (agreement_scores : List (String × Nat)) (r : Record) :
    Record :=
  let ag : Int := ((alookup agreement_scores r.id).getD 0 : Nat)
  { r with agreement_score := ag, total_score := r.credibility_score + ag }

/-- What `run_pipeline` returns: the final records and the report
artifacts, each `none` on the early empty-result return. -/
structure PipelineResult where
  records : List Record
  report_text : Option String
  pdf_path : Option String
  evalReport : Option String
deriving Repr

/-- Everything of `run_pipeline` after the discovery rounds, together
with the list of analytic external calls performed. Fewer than 2 records
short-circuits to the early return `(summaries, None, None, None)` with
no analytic call; otherwise: agreement detection (validated — a
validation failure aborts the run), agreement scoring, total scores,
conflict detection, conflict resolution, the batched rewrite when the
RemovalPlan is non-empty, then report, PDF and evaluation. (If a
RemovalPlan id were absent from the records Python's
`next(s for s in summaries ...)` would raise; here the lookup defaults to
the empty summary — such an id cannot occur in `removals` keys that came
from ids present in the score map.) -/
def analysisPhase (aenv : AnalysisEnv) (user_query : String) (plan : Plan)
    (summaries : List Record) :
    List PhaseCall × Except String PipelineResult :=
  if summaries.length < 2 then
    ([], .ok { records := summaries, report_text := none,
               pdf_path := none, evalReport := none })
  else
    match detect_agreements_validated (summaries.map (fun r => r.id))
        (aenv.agreement_llm (summaries.map (fun r => (r.id, r.summary)))) with
    | .error e => ([PhaseCall.agreement], .error e)
    | .ok agreement_map =>
      let agreement_scores := compute_agreement_scores agreement_map
      let scored := summaries.map (setScores agreement_scores)
      let pairs2 := scored.map (fun r => (r.id, r.summary))
      let conflicts := aenv.conflict_llm pairs2
      let removals := resolve_conflicts conflicts
        (scored.map (fun r => (r.id, r.total_score)))
      let final :=
        if removals.isEmpty then scored
        else
          let rewritten := aenv.rewrite_llm (removals.map (fun p =>
            (p.1,
             ((scored.find? (fun r => r.id = p.1)).map
               (fun r => r.summary)).getD "",
             p.2)))
          scored.map (fun r =>
            match alookup rewritten r.id with
            | some t => { r with summary := t }
            | none => r)
      let refs := aenv.references final
      let th := aenv.title_headings user_query (final.map (fun r => r.summary))
      let report := aenv.write_report th.1 th.2
        (final.map (fun r => (r.id, r.summary))) refs
      let pdf := aenv.generate_pdf report
        ("report_" ++ toString aenv.timestamp ++ ".pdf")
      let evalOut := aenv.evaluate user_query plan report
        (final.map (fun r => (r.id, r.summary))) th.2 refs
      ([PhaseCall.agreement, PhaseCall.conflict]
        ++ (if removals.isEmpty then [] else [PhaseCall.rewrite])
        ++ [PhaseCall.report, PhaseCall.evaluationCall],
       .ok { records := final, report_text := some report,
             pdf_path := some pdf, evalReport := some evalOut })

/-- `run_pipeline` of `controller/run.py`: mode lookup (an unknown mode
raises before any round), the research plan once, the discovery rounds,
then the analysis/report phase. -/
def run_pipeline (env : Env) (aenv : AnalysisEnv)
    (user_query mode : String) :
    Except String (List PhaseCall × PipelineResult) :=
  match alookup MODES mode with
  | none => .error ("Unknown mode: " ++ mode)
  | some cfg =>
    let plan := env.plan user_query
    let st := runDiscovery env mode user_query plan cfg.1 cfg.2
    match analysisPhase aenv user_query plan st.summaries with
    | (_, .error e) => .error e
    | (calls, .ok res) => .ok (calls, res)

/-- The run invariant of the seen-URL set: it lists exactly the
accumulated records' URLs, in order, without duplicates. -/
def Inv (s : RunState) : Prop :=
  s.seen = s.summaries.map (fun r => r.url) ∧ s.seen.Nodup

/-- A minimal environment used to exercise the controller on concrete
inputs. -/
def trivEnv : Env :=
  { plan := fun _ => { goal := "g", dimensions := [] },
    gen_initial := fun _ _ _ _ => [],
    refine := fun _ _ _ => [],
    vector_search := fun _ _ => [],
    rerank := fun _ c _ => c,
    judge := fun _ _ => [],
    search_web := fun _ => [],
    tavily_extract := fun _ => none,
    extract_metadata := fun _ => { author := none, date_published := none },
    generate_summary := fun _ _ => "",
    normalize_date := fun d => d,
    today := "2026-01-01",
    cred_score := fun _ => 0 }

/-- A minimal analysis environment used on concrete inputs. -/
def trivAEnv : AnalysisEnv :=
  { agreement_llm := fun _ => [],
    conflict_llm := fun _ => [],
    rewrite_llm := fun _ => [],
    references := fun _ => [],
    title_headings := fun _ _ => ("t", []),
    write_report := fun _ _ _ _ => "",
    generate_pdf := fun _ p => p,
    evaluate := fun _ _ _ _ _ _ => "",
    timestamp := 0 }

/-- The empty starting state of a run. -/
def initState : RunState := { summaries := [], seen := [], sid := 1 }

/-- A sample stored candidate used to exercise the controller. -/
def sampleHit : Hit :=
  { query_text := "q", summary := "s", url := some "u", domain := none,
    author := none, venue_type := none, date_published := none,
    date_retrieved := none }

/-- Sample per-query candidates: the same stored record (same URL)
survives for Q1 and Q2. -/
def sampleRetrieved : List (String × List (String × Hit)) :=
  [("Q1", [("VS_1", sampleHit)]), ("Q2", [("VS_1", sampleHit)])]

/-- A sample judge reply choosing the same candidate for Q1 and Q2. -/
def sampleSelected : List (String × Option String) :=
  [("Q1", some "VS_1"), ("Q2", some "VS_1")]

/-! ## Lemmas about the association-list embedding -/

theorem alookup_append {β : Type} (s t : List (String × β)) (x : String) :
    alookup (s ++ t) x =
      match alookup s x with
      | some v => some v
      | none => alookup t x := by
  induction s with
  | nil => simp [alookup]
  | cons p rest ih =>
    by_cases h : p.1 = x
    · simp [alookup, h]
    · simpa [alookup, h] using ih

theorem alookup_updateAt {β : Type} (s : List (String × β)) (k : String)
    (f : β → β) (x : String) :
    alookup (updateAt s k f) x =
      if x = k then (alookup s x).map f else alookup s x := by
  induction s with
  | nil => simp [alookup, updateAt]
  | cons p rest ih =>
    simp only [updateAt, List.map_cons] at ih ⊢
    by_cases hpk : p.1 = k
    · subst hpk
      by_cases hpx : p.1 = x
      · subst hpx
        simp [alookup]
      · have hxp : ¬ x = p.1 := fun h => hpx h.symm
        simp [alookup, hpx, hxp, ih]
    · by_cases hpx : p.1 = x
      · subst hpx
        have hxk : ¬ p.1 = k := hpk
        simp [alookup, hpk, hxk]
      · simp [alookup, hpk, hpx, ih]

theorem alookup_setdefaultZero (s : List (String × Nat)) (k x : String) :
    alookup (setdefaultZero s k) x =
      if x = k then some ((alookup s x).getD 0) else alookup s x := by
  unfold setdefaultZero
  cases hk : alookup s k with
  | some v =>
    by_cases hxk : x = k
    · subst hxk; simp [hk]
    · simp [hxk]
  | none =>
    rw [alookup_append]
    by_cases hxk : x = k
    · subst hxk; simp [hk, alookup]
    · have hkx : ¬ k = x := fun h => hxk h.symm
      cases hx : alookup s x <;> simp [alookup, hxk, hkx, hx]

/-! ## Lemmas about `compute_agreement_scores` -/

theorem alookup_setdefaultFold (s : List (String × Nat))
    (rels : List (String × String)) (x : String) :
    alookup (rels.foldl (fun a q => setdefaultZero a q.1) s) x =
      match alookup s x with
      | some v => some v
      | none => cond (rels.any (fun q => q.1 = x)) (some 0) none := by
  induction rels generalizing s with
  | nil => cases h : alookup s x <;> simp [h]
  | cons q rest ih =>
    rw [List.foldl_cons, ih]
    rw [alookup_setdefaultZero]
    simp only [List.any_cons]
    by_cases hxq : x = q.1
    · subst hxq
      cases h : alookup s q.1 <;> simp [h]
    · have hqx : ¬ q.1 = x := fun h => hxq h.symm
      simp only [if_neg hxq, decide_eq_false hqx, Bool.false_or]

theorem alookup_initScoresFrom (s : List (String × Nat)) (m : AgreementMap)
    (x : String) :
    alookup (initScoresFrom s m) x =
      match alookup s x with
      | some v => some v
      | none => cond (mentions m x) (some 0) none := by
  induction m generalizing s with
  | nil => cases h : alookup s x <;> simp [initScoresFrom, mentions, h]
  | cons p rest ih =>
    have hstep : initScoresFrom s (p :: rest) =
        initScoresFrom
          (p.2.foldl (fun a q => setdefaultZero a q.1)
            (setdefaultZero s p.1)) rest := rfl
    rw [hstep, ih, alookup_setdefaultFold, alookup_setdefaultZero]
    by_cases hxp : x = p.1
    · subst hxp
      cases h : alookup s p.1 <;> simp [mentions, h]
    · have hpx : ¬ p.1 = x := fun h => hxp h.symm
      rw [if_neg hxp]
      cases h : alookup s x
      · simp only [h, mentions, List.any_cons]
        rw [decide_eq_false hpx, Bool.false_or]
        cases htgt : p.2.any (fun q => q.1 = x) <;> simp [htgt]
      · simp [h]

theorem alookup_addWeightFold (s : List (String × Nat))
    (rels : List (String × String)) (x : String) :
    alookup (rels.foldl
        (fun a q => addWeight a q.1 (AGREEMENT_WEIGHTS q.2)) s) x =
      (alookup s x).map (· + incomingWeight x rels) := by
  induction rels generalizing s with
  | nil => cases h : alookup s x <;> simp [h, incomingWeight]
  | cons q rest ih =>
    rw [List.foldl_cons, ih]
    simp only [addWeight]
    rw [alookup_updateAt]
    by_cases hxq : x = q.1
    · subst hxq
      cases h : alookup s q.1 <;>
        simp [h, incomingWeight, Nat.add_assoc]
    · have hqx : ¬ q.1 = x := fun h => hxq h.symm
      rw [if_neg hxq]
      cases h : alookup s x <;>
        simp [h, incomingWeight, decide_eq_false hqx]

theorem alookup_accumulateFrom (s : List (String × Nat)) (m : AgreementMap)
    (x : String) :
    alookup (accumulateFrom s m) x =
      (alookup s x).map (· + incomingSum m x) := by
  induction m generalizing s with
  | nil => cases h : alookup s x <;> simp [accumulateFrom, incomingSum, h]
  | cons p rest ih =>
    have hstep : accumulateFrom s (p :: rest) =
        accumulateFrom
          (p.2.foldl (fun a q => addWeight a q.1 (AGREEMENT_WEIGHTS q.2)) s)
          rest := rfl
    rw [hstep, ih, alookup_addWeightFold]
    cases h : alookup s x <;> simp [h, incomingSum, Nat.add_assoc]

/-- C4: `compute_agreement_scores` assigns each mentioned id the sum, over
all incoming relations `(src, tgt, label)` with `tgt` equal to that id, of
the fixed weight of `label` (strongly_supports = 5, partially_supports = 3,
independent = 1); an id with no incoming relations has sum 0 and hence
scores 0. In particular, for `S1→S2: strongly_supports` and
`S3→S2: partially_supports` and no other edges, S2 scores 8 and S1 and S3
score 0. -/
theorem compute_agreement_scores_correct :
    (∀ (m : AgreementMap) (x : String), mentions m x = true →
      alookup (compute_agreement_scores m) x = some (incomingSum m x))
    ∧ compute_agreement_scores
        [("S1", [("S2", "strongly_supports")]),
         ("S3", [("S2", "partially_supports")])] =
        [("S1", 0), ("S2", 8), ("S3", 0)] := by
  constructor
  · intro m x hx
    unfold compute_agreement_scores
    rw [alookup_accumulateFrom, alookup_initScoresFrom]
    simp [alookup, hx]
  · rfl

/-- Concrete instantiation of `compute_agreement_scores_correct`: S2 is
mentioned in the example map, and its looked-up score is its incoming sum. -/
theorem compute_agreement_scores_correct_witness :
    alookup
        (compute_agreement_scores
          [("S1", [("S2", "strongly_supports")]),
           ("S3", [("S2", "partially_supports")])]) "S2" =
      some (incomingSum
        [("S1", [("S2", "strongly_supports")]),
         ("S3", [("S2", "partially_supports")])] "S2") :=
  compute_agreement_scores_correct.1 _ "S2" (by decide)

/-! ## Theorems about `resolve_conflicts` -/

theorem alookup_appendRemoval (r : List (String × List String))
    (k v : String) (x : String) :
    alookup (appendRemoval r k v) x =
      if x = k then some ((alookup r k).getD [] ++ [v]) else alookup r x := by
  unfold appendRemoval
  cases hk : alookup r k with
  | some l =>
    rw [alookup_updateAt]
    by_cases hxk : x = k
    · subst hxk; simp [hk]
    · simp [hxk]
  | none =>
    rw [alookup_append]
    by_cases hxk : x = k
    · subst hxk; simp [hk, alookup]
    · have hkx : ¬ k = x := fun h => hxk h.symm
      cases hx : alookup r x <;> simp [alookup, hxk, hkx, hx]

/-- C1: for a ConflictRecord whose two ids both appear in the total-score
map, `resolve_conflicts` appends exactly the strictly lower-scoring side's
claim text to that losing id's removal list, changes no other id's entry,
and on a score tie changes nothing; for scores A=10, B=4 with claims
"X"/"Y" the RemovalPlan is exactly `{B: ["Y"]}` and does not mention A. -/
theorem resolve_conflicts_score_dominance :
    (∀ (scores : List (String × Int)) (r : List (String × List String))
        (c : Conflict) (a b : String) (sa sb : Int),
      c.ids = [a, b] → alookup scores a = some sa →
      alookup scores b = some sb →
      ((sa = sb → resolveStep scores r c = r)
       ∧ (sa > sb →
            alookup (resolveStep scores r c) b =
              some ((alookup r b).getD [] ++ [c.claim_b])
            ∧ ∀ y, y ≠ b →
                alookup (resolveStep scores r c) y = alookup r y)
       ∧ (sa < sb →
            alookup (resolveStep scores r c) a =
              some ((alookup r a).getD [] ++ [c.claim_a])
            ∧ ∀ y, y ≠ a →
                alookup (resolveStep scores r c) y = alookup r y)))
    ∧ resolve_conflicts [⟨["A", "B"], "X", "Y"⟩] [("A", 10), ("B", 4)] =
        [("B", ["Y"])]
    ∧ alookup
        (resolve_conflicts [⟨["A", "B"], "X", "Y"⟩] [("A", 10), ("B", 4)])
        "A" = none := by
  refine ⟨?_, by decide, by decide⟩
  intro scores r c a b sa sb hids ha hb
  have hstep : resolveStep scores r c =
      (if ((alookup scores a).getD 0 : Int) = (alookup scores b).getD 0
       then r
       else if ((alookup scores a).getD 0 : Int) > (alookup scores b).getD 0
       then appendRemoval r b c.claim_b
       else appendRemoval r a c.claim_a) := by
    unfold resolveStep
    rw [hids]
  rw [ha, hb] at hstep
  simp only [Option.getD_some] at hstep
  refine ⟨?_, ?_, ?_⟩
  · intro hEq
    rw [hstep, if_pos hEq]
  · intro hGt
    have hne : ¬ sa = sb := ne_of_gt hGt
    rw [hstep, if_neg hne, if_pos hGt]
    constructor
    · rw [alookup_appendRemoval, if_pos rfl]
    · intro y hy
      rw [alookup_appendRemoval, if_neg hy]
  · intro hLt
    have hne : ¬ sa = sb := ne_of_lt hLt
    have hng : ¬ sa > sb := not_lt_of_gt hLt
    rw [hstep, if_neg hne, if_neg hng]
    constructor
    · rw [alookup_appendRemoval, if_pos rfl]
    · intro y hy
      rw [alookup_appendRemoval, if_neg hy]

/-- Concrete instantiation of `resolve_conflicts_score_dominance` at
A=10, B=4: B's removal list gains claim "Y". -/
theorem resolve_conflicts_score_dominance_witness :
    alookup
        (resolveStep [("A", (10 : Int)), ("B", 4)] []
          ⟨["A", "B"], "X", "Y"⟩) "B" =
      some ((alookup ([] : List (String × List String)) "B").getD []
        ++ ["Y"]) :=
  ((resolve_conflicts_score_dominance.1 [("A", 10), ("B", 4)] []
    ⟨["A", "B"], "X", "Y"⟩ "A" "B" 10 4 rfl (by decide) (by decide)).2.1
    (by decide)).1

/-- C8 counterexample: a ConflictRecord one of whose ids ("B") is missing
from the total-score map is not skipped — the missing score defaults to 0,
"B" loses against A's score 5, and the RemovalPlan gains the entry
`{B: ["Y"]}` instead of staying empty. -/
theorem resolve_conflicts_missing_id_contributes :
    alookup [("A", (5 : Int))] "B" = none ∧
    resolve_conflicts [⟨["A", "B"], "X", "Y"⟩] [("A", 5)] =
      [("B", ["Y"])] := by
  exact ⟨by decide, by decide⟩

/-- C8 amended: a ConflictRecord without exactly two ids is skipped and
contributes nothing; but an id missing from the score map does not cause a
skip — its score defaults to 0 and resolution proceeds on the defaulted
scores. -/
theorem resolveStep_defensive :
    (∀ (scores : List (String × Int)) (r : List (String × List String))
        (c : Conflict), c.ids.length ≠ 2 → resolveStep scores r c = r)
    ∧ (∀ (scores : List (String × Int)) (r : List (String × List String))
        (c : Conflict) (a b : String),
        c.ids = [a, b] → alookup scores a = none →
        resolveStep scores r c =
          (if (0 : Int) = (alookup scores b).getD 0 then r
           else if (0 : Int) > (alookup scores b).getD 0 then
             appendRemoval r b c.claim_b
           else appendRemoval r a c.claim_a)) := by
  constructor
  · intro scores r c hlen
    rcases c with ⟨ids, ca, cb⟩
    rcases ids with _ | ⟨x, _ | ⟨y, _ | ⟨z, t⟩⟩⟩
    · rfl
    · rfl
    · exact absurd rfl hlen
    · rfl
  · intro scores r c a b hids ha
    have hstep : resolveStep scores r c =
        (if ((alookup scores a).getD 0 : Int) = (alookup scores b).getD 0
         then r
         else if ((alookup scores a).getD 0 : Int) >
             (alookup scores b).getD 0
         then appendRemoval r b c.claim_b
         else appendRemoval r a c.claim_a) := by
      unfold resolveStep
      rw [hids]
    rw [ha] at hstep
    simpa using hstep

/-- Concrete instantiation of `resolveStep_defensive`: a one-id conflict
record is skipped outright. -/
theorem resolveStep_defensive_witness :
    resolveStep [] [] ⟨["A"], "X", "Y"⟩ = [] :=
  resolveStep_defensive.1 [] [] ⟨["A"], "X", "Y"⟩ (by decide)

/-! ## Theorems about `detect_agreements` validation -/

theorem checkRels_ok_iff (ids : List String) (src : String)
    (rels : List (String × String)) :
    checkRels ids src rels = .ok () ↔
      ∀ q ∈ rels, q.1 ∈ ids ∧ src ≠ q.1 ∧ q.2 ∈ ALLOWED_LABELS := by
  induction rels with
  | nil => simp [checkRels]
  | cons q rest ih =>
    by_cases h1 : q.1 ∈ ids
    · by_cases h2 : src = q.1
      · simp [checkRels, h1, h2]
      · by_cases h3 : q.2 ∈ ALLOWED_LABELS
        · simp [checkRels, h1, h2, h3, ih]
        · simp [checkRels, h1, h2, h3]
    · simp [checkRels, h1]

theorem checkAll_ok_iff (ids : List String) (data : AgreementMap) :
    checkAll ids data = .ok () ↔ ValidAgreement ids data := by
  induction data with
  | nil => simp [checkAll, ValidAgreement]
  | cons p rest ih =>
    unfold ValidAgreement at ih ⊢
    by_cases h1 : p.1 ∈ ids
    · cases hr : checkRels ids p.1 p.2 with
      | error e =>
        have hnall :
            ¬ ∀ q ∈ p.2, q.1 ∈ ids ∧ p.1 ≠ q.1 ∧ q.2 ∈ ALLOWED_LABELS := by
          intro hall
          rw [← checkRels_ok_iff ids p.1 p.2, hr] at hall
          simp at hall
        constructor
        · intro h
          exfalso
          simp [checkAll, h1, hr] at h
        · intro hall
          exact absurd ((hall p (List.mem_cons_self p rest)).2) hnall
      | ok u =>
        cases u
        have hok := (checkRels_ok_iff ids p.1 p.2).mp hr
        have hred : checkAll ids (p :: rest) = checkAll ids rest := by
          simp [checkAll, h1, hr]
        rw [hred, ih]
        constructor
        · intro hrest r hr2
          rcases List.mem_cons.mp hr2 with he | hm
          · subst he
            exact ⟨h1, hok⟩
          · exact hrest r hm
        · intro hall r hr2
          exact hall r (List.mem_cons_of_mem p hr2)
    · constructor
      · intro h
        exfalso
        simp [checkAll, h1] at h
      · intro hall
        exact absurd (hall p (List.mem_cons_self p rest)).1 h1

/-- C5: the `detect_agreements` validation raises an error whenever the
parsed response contains a source or target id outside the run's summary
ids, a self-relation, or a label outside the three allowed values; a
response without violations is returned unchanged, and any accepted
response equals the input (nothing is dropped or coerced). -/
theorem detect_agreements_validates :
    ∀ (ids : List String) (data : AgreementMap),
      ((∃ p ∈ data, p.1 ∉ ids
          ∨ ∃ q ∈ p.2, q.1 ∉ ids ∨ p.1 = q.1 ∨ q.2 ∉ ALLOWED_LABELS) →
        ∃ e, detect_agreements_validated ids data = .error e)
      ∧ (ValidAgreement ids data →
          detect_agreements_validated ids data = .ok data)
      ∧ (∀ d, detect_agreements_validated ids data = .ok d → d = data) := by
  intro ids data
  refine ⟨?_, ?_, ?_⟩
  · intro hviol
    have hnv : ¬ ValidAgreement ids data := by
      intro hall
      obtain ⟨p, hp, hc⟩ := hviol
      have hpv := hall p hp
      rcases hc with h | ⟨q, hq, hc2⟩
      · exact h hpv.1
      · have hqv := hpv.2 q hq
        rcases hc2 with h | h | h
        · exact h hqv.1
        · exact hqv.2.1 h
        · exact h hqv.2.2
    unfold detect_agreements_validated
    cases hca : checkAll ids data with
    | error e => exact ⟨e, rfl⟩
    | ok u =>
      cases u
      exact absurd ((checkAll_ok_iff ids data).mp hca) hnv
  · intro hv
    unfold detect_agreements_validated
    rw [(checkAll_ok_iff ids data).mpr hv]
  · intro d hd
    unfold detect_agreements_validated at hd
    cases hca : checkAll ids data with
    | error e => rw [hca] at hd; simp at hd
    | ok u => rw [hca] at hd; exact (Except.ok.inj hd).symm

/-- Concrete instantiation of `detect_agreements_validates`: a valid
one-edge response is returned unchanged. -/
theorem detect_agreements_validates_witness :
    detect_agreements_validated ["S1", "S2"]
        [("S1", [("S2", "strongly_supports")])] =
      .ok [("S1", [("S2", "strongly_supports")])] :=
  (detect_agreements_validates ["S1", "S2"]
    [("S1", [("S2", "strongly_supports")])]).2.1
    (by unfold ValidAgreement; decide)

/-! ## Lemmas about the discovery controller -/

theorem mem_addSeen (seen : List (Option String)) (u x : Option String) :
    x ∈ addSeen seen u ↔ x ∈ seen ∨ x = u := by
  unfold addSeen
  by_cases h : u ∈ seen
  · rw [if_pos h]
    constructor
    · exact Or.inl
    · rintro (hx | rfl)
      · exact hx
      · exact h
  · rw [if_neg h]
    simp

theorem seen_subset_addSeen (seen : List (Option String))
    (u : Option String) : seen ⊆ addSeen seen u := by
  intro x hx
  exact (mem_addSeen seen u x).mpr (Or.inl hx)

theorem ingestRecord_url (env : Env) (mode : String) (sid : Nat)
    (qtext u : String) (e : Extracted) (t : String) :
    (ingestRecord env mode sid qtext u e t).url = some u := rfl

theorem reuseRecord_url (env : Env) (sid : Nat) (h : Hit) :
    (reuseRecord env sid h).url = h.url := rfl

theorem Inv.appendRecord {s : RunState} {r : Record} (hinv : Inv s)
    (hu : r.url ∉ s.seen) (n : Nat) :
    Inv { summaries := s.summaries ++ [r],
          seen := addSeen s.seen r.url, sid := n } := by
  obtain ⟨hmap, hnd⟩ := hinv
  unfold Inv addSeen
  rw [if_neg hu]
  constructor
  · simp [hmap]
  · simp [List.nodup_append, hnd, hu]

theorem webIngestResult_some (env : Env) (mode : String) (s : RunState)
    (qtext : String) (wr : WebResult) (s2 : RunState)
    (hacc : webIngestResult env mode s qtext wr = some s2) :
    ∃ u e t, (some u) ∉ s.seen ∧
      s2 = { summaries :=
               s.summaries ++ [ingestRecord env mode s.sid qtext u e t],
             seen := addSeen s.seen (some u), sid := s.sid + 1 } := by
  unfold webIngestResult at hacc
  split at hacc
  · simp at hacc
  rename_i u hwu
  split at hacc
  · simp at hacc
  split at hacc
  · simp at hacc
  rename_i hu2
  split at hacc
  · simp at hacc
  rename_i e he
  split at hacc
  · simp at hacc
  rename_i t ht
  split at hacc
  · simp at hacc
  exact ⟨u, e, t, hu2, (Option.some.inj hacc).symm⟩

theorem webIngestLoop_inv (env : Env) (mode qtext : String) :
    ∀ (rs : List WebResult) (s : RunState), Inv s →
      Inv (webIngestLoop env mode s qtext rs) := by
  intro rs
  induction rs with
  | nil => intro s hs; exact hs
  | cons wr rest ih =>
    intro s hs
    unfold webIngestLoop
    cases hacc : webIngestResult env mode s qtext wr with
    | some s2 =>
      obtain ⟨u, e, t, hu, hs2⟩ :=
        webIngestResult_some env mode s qtext wr s2 hacc
      subst hs2
      exact hs.appendRecord hu (s.sid + 1)
    | none => exact ih s hs

theorem webIngestQuery_inv (env : Env) (mode : String) (s : RunState)
    (qtext : String) (hs : Inv s) :
    Inv (webIngestQuery env mode s qtext) :=
  webIngestLoop_inv env mode qtext (env.search_web qtext) s hs

theorem processQuery_inv (env : Env) (mode : String)
    (retrieved : List (String × List (String × Hit)))
    (selected : List (String × Option String))
    (s : RunState) (q : String × String) (hs : Inv s) :
    Inv (processQuery env mode retrieved selected s q) := by
  unfold processQuery
  split
  · split
    · split
      · split
        · exact hs.appendRecord (by assumption) (s.sid + 1)
        · exact webIngestQuery_inv env mode s q.2 hs
      · exact webIngestQuery_inv env mode s q.2 hs
    · exact webIngestQuery_inv env mode s q.2 hs
  · exact webIngestQuery_inv env mode s q.2 hs

theorem foldl_processQuery_inv (env : Env) (mode : String)
    (retrieved : List (String × List (String × Hit)))
    (selected : List (String × Option String)) :
    ∀ (qs : List (String × String)) (s : RunState), Inv s →
      Inv (qs.foldl (processQuery env mode retrieved selected) s) := by
  intro qs
  induction qs with
  | nil => intro s hs; exact hs
  | cons q rest ih =>
    intro s hs
    rw [List.foldl_cons]
    exact ih _ (processQuery_inv env mode retrieved selected s q hs)

theorem processRound_inv (env : Env) (mode : String) (s : RunState)
    (queries : List String) (hs : Inv s) :
    Inv (processRound env mode s queries) := by
  unfold processRound
  exact foldl_processQuery_inv env mode _ _ (subqMap queries) s hs

theorem foldl_round_inv (env : Env) (mode : String)
    (f : RunState → Nat → List String) :
    ∀ (l : List Nat) (s0 : RunState), Inv s0 →
      Inv (l.foldl (fun s i => processRound env mode s (f s i)) s0) := by
  intro l
  induction l with
  | nil => intro s0 h; exact h
  | cons i rest ih =>
    intro s0 h
    rw [List.foldl_cons]
    exact ih _ (processRound_inv env mode s0 (f s0 i) h)

theorem runDiscovery_inv (env : Env) (mode user_query : String)
    (plan : Plan) (iterations queries_per_iteration : Nat) :
    Inv (runDiscovery env mode user_query plan iterations
      queries_per_iteration) := by
  unfold runDiscovery
  exact foldl_round_inv env mode
    (roundQueries env user_query plan queries_per_iteration)
    (List.range iterations) { summaries := [], seen := [], sid := 1 }
    ⟨rfl, List.nodup_nil⟩

theorem webIngestLoop_seen_mono (env : Env) (mode qtext : String) :
    ∀ (rs : List WebResult) (s : RunState),
      s.seen ⊆ (webIngestLoop env mode s qtext rs).seen := by
  intro rs
  induction rs with
  | nil => intro s; exact fun x hx => hx
  | cons wr rest ih =>
    intro s
    unfold webIngestLoop
    cases hacc : webIngestResult env mode s qtext wr with
    | some s2 =>
      obtain ⟨u, e, t, hu, hs2⟩ :=
        webIngestResult_some env mode s qtext wr s2 hacc
      subst hs2
      exact seen_subset_addSeen s.seen (some u)
    | none => exact ih s

theorem webIngestQuery_seen_mono (env : Env) (mode : String)
    (s : RunState) (qtext : String) :
    s.seen ⊆ (webIngestQuery env mode s qtext).seen :=
  webIngestLoop_seen_mono env mode qtext (env.search_web qtext) s

theorem processQuery_seen_mono (env : Env) (mode : String)
    (retrieved : List (String × List (String × Hit)))
    (selected : List (String × Option String))
    (s : RunState) (q : String × String) :
    s.seen ⊆ (processQuery env mode retrieved selected s q).seen := by
  unfold processQuery
  split
  · split
    · split
      · split
        · exact seen_subset_addSeen _ _
        · exact webIngestQuery_seen_mono env mode s q.2
      · exact webIngestQuery_seen_mono env mode s q.2
    · exact webIngestQuery_seen_mono env mode s q.2
  · exact webIngestQuery_seen_mono env mode s q.2

/-- C2: the discovery controller maintains, at every point of a run, that
the seen-URL set lists exactly the accumulated records' source URLs with
no duplicates: the invariant holds of the initial state, is preserved by
every reuse-or-ingest step (each append is accompanied by marking the
record's previously-unseen URL seen, and already-seen candidates or
results are rejected), by every round, and of the whole discovery phase;
and under it the seen set's size equals the number of records and no two
records share a source URL. -/
theorem discovery_url_invariant :
    Inv { summaries := [], seen := [], sid := 1 }
    ∧ (∀ (env : Env) (mode : String)
        (retrieved : List (String × List (String × Hit)))
        (selected : List (String × Option String))
        (s : RunState) (q : String × String),
        Inv s → Inv (processQuery env mode retrieved selected s q))
    ∧ (∀ (env : Env) (mode : String) (s : RunState)
        (queries : List String),
        Inv s → Inv (processRound env mode s queries))
    ∧ (∀ (env : Env) (mode user_query : String) (plan : Plan)
        (iters nq : Nat),
        Inv (runDiscovery env mode user_query plan iters nq))
    ∧ (∀ s : RunState, Inv s →
        s.seen.length = s.summaries.length
        ∧ (s.summaries.map (fun r => r.url)).Nodup) := by
  refine ⟨⟨rfl, List.nodup_nil⟩, ?_, ?_, ?_, ?_⟩
  · intro env mode retrieved selected s q hs
    exact processQuery_inv env mode retrieved selected s q hs
  · intro env mode s queries hs
    exact processRound_inv env mode s queries hs
  · intro env mode user_query plan iters nq
    exact runDiscovery_inv env mode user_query plan iters nq
  · intro s hs
    obtain ⟨hmap, hnd⟩ := hs
    constructor
    · rw [hmap, List.length_map]
    · rw [hmap] at hnd
      exact hnd

/-- Concrete instantiation of `discovery_url_invariant`: one
reuse-or-ingest step from the initial state keeps the invariant. -/
theorem discovery_url_invariant_witness :
    Inv (processQuery trivEnv "quick" [] []
      { summaries := [], seen := [], sid := 1 } ("Q1", "q")) :=
  discovery_url_invariant.2.1 trivEnv "quick" [] []
    { summaries := [], seen := [], sid := 1 } ("Q1", "q")
    ⟨rfl, List.nodup_nil⟩

theorem processQuery_selected_eq (env : Env) (mode : String)
    (retrieved : List (String × List (String × Hit)))
    (selected : List (String × Option String))
    (s : RunState) (q : String × String) (vid : String)
    (cands : List (String × Hit))
    (hsel : getSelected selected q.1 = some vid) (hv : vid ≠ "")
    (hret : alookup retrieved q.1 = some cands) :
    processQuery env mode retrieved selected s q =
      (match alookup cands vid with
       | some h =>
         if h.url ∉ s.seen then
           { summaries := s.summaries ++ [reuseRecord env s.sid h],
             seen := addSeen s.seen h.url, sid := s.sid + 1 }
         else webIngestQuery env mode s q.2
       | none => webIngestQuery env mode s q.2) := by
  unfold processQuery
  split
  · rename_i vid0 hvid0
    rw [hsel] at hvid0
    cases Option.some.inj hvid0
    rw [if_pos ⟨hv, by rw [hret]; rfl⟩, hret]
    simp only [Option.getD_some]
  · rename_i hvid0
    rw [hsel] at hvid0
    simp at hvid0

theorem processQuery_reuse (env : Env) (mode : String)
    (retrieved : List (String × List (String × Hit)))
    (selected : List (String × Option String))
    (s : RunState) (q : String × String) (vid : String)
    (cands : List (String × Hit)) (h : Hit)
    (hsel : getSelected selected q.1 = some vid) (hv : vid ≠ "")
    (hret : alookup retrieved q.1 = some cands)
    (hc : alookup cands vid = some h) (hnew : h.url ∉ s.seen) :
    processQuery env mode retrieved selected s q =
      { summaries := s.summaries ++ [reuseRecord env s.sid h],
        seen := s.seen ++ [h.url], sid := s.sid + 1 } := by
  rw [processQuery_selected_eq env mode retrieved selected s q vid cands
    hsel hv hret]
  split
  · rename_i h0 hh0
    rw [hc] at hh0
    cases Option.some.inj hh0
    rw [if_pos hnew]
    unfold addSeen
    rw [if_neg hnew]
  · rename_i hh0
    rw [hc] at hh0
    simp at hh0

theorem processQuery_reuse_blocked (env : Env) (mode : String)
    (retrieved : List (String × List (String × Hit)))
    (selected : List (String × Option String))
    (s : RunState) (q : String × String) (vid : String)
    (cands : List (String × Hit)) (h : Hit)
    (hsel : getSelected selected q.1 = some vid) (hv : vid ≠ "")
    (hret : alookup retrieved q.1 = some cands)
    (hc : alookup cands vid = some h) (hseen : h.url ∈ s.seen) :
    processQuery env mode retrieved selected s q =
      webIngestQuery env mode s q.2 := by
  rw [processQuery_selected_eq env mode retrieved selected s q vid cands
    hsel hv hret]
  split
  · rename_i h0 hh0
    rw [hc] at hh0
    cases Option.some.inj hh0
    rw [if_neg (by simpa using hseen)]
  · rfl

theorem processQuery_no_candidate (env : Env) (mode : String)
    (retrieved : List (String × List (String × Hit)))
    (selected : List (String × Option String))
    (s : RunState) (q : String × String) (vid : String)
    (cands : List (String × Hit))
    (hsel : getSelected selected q.1 = some vid)
    (hret : alookup retrieved q.1 = some cands)
    (hc : alookup cands vid = none) :
    processQuery env mode retrieved selected s q =
      webIngestQuery env mode s q.2 := by
  by_cases hv : vid = ""
  · subst hv
    unfold processQuery
    split
    · rename_i vid0 hvid0
      rw [hsel] at hvid0
      cases Option.some.inj hvid0
      rw [if_neg (by simp)]
    · rfl
  · rw [processQuery_selected_eq env mode retrieved selected s q vid cands
      hsel hv hret]
    split
    · rename_i h0 hh0
      rw [hc] at hh0
      simp at hh0
    · rfl

theorem processQuery_not_retrieved (env : Env) (mode : String)
    (retrieved : List (String × List (String × Hit)))
    (selected : List (String × Option String))
    (s : RunState) (q : String × String)
    (hnone : alookup retrieved q.1 = none) :
    processQuery env mode retrieved selected s q =
      webIngestQuery env mode s q.2 := by
  unfold processQuery
  split
  · rename_i vid0 hvid0
    rw [if_neg]
    rintro ⟨-, hsome⟩
    rw [hnone] at hsome
    simp at hsome
  · rfl

theorem processQuery_selected_none (env : Env) (mode : String)
    (retrieved : List (String × List (String × Hit)))
    (selected : List (String × Option String))
    (s : RunState) (q : String × String)
    (hsel : getSelected selected q.1 = none) :
    processQuery env mode retrieved selected s q =
      webIngestQuery env mode s q.2 := by
  unfold processQuery
  split
  · rename_i vid0 hvid0
    rw [hsel] at hvid0
    simp at hvid0
  · rfl

/-- C6: the reuse branch requires the chosen candidate's URL to be unseen
and a successful reuse marks it seen, while the seen set only grows
through any later step; hence when the judge names candidates with the
same URL for two distinct queries of a round, the first query reuses the
record and the second falls through to fresh web ingestion. -/
theorem reuse_gate_at_most_one (env : Env) (mode : String)
    (retrieved : List (String × List (String × Hit)))
    (selected : List (String × Option String))
    (s : RunState) (q1 q2 : String × String) (vid1 vid2 : String)
    (cands1 cands2 : List (String × Hit)) (h1 h2 : Hit)
    (hsel1 : getSelected selected q1.1 = some vid1) (hv1 : vid1 ≠ "")
    (hret1 : alookup retrieved q1.1 = some cands1)
    (hc1 : alookup cands1 vid1 = some h1)
    (hsel2 : getSelected selected q2.1 = some vid2) (hv2 : vid2 ≠ "")
    (hret2 : alookup retrieved q2.1 = some cands2)
    (hc2 : alookup cands2 vid2 = some h2)
    (hurl : h2.url = h1.url) (hnew : h1.url ∉ s.seen) :
    processQuery env mode retrieved selected s q1 =
      { summaries := s.summaries ++ [reuseRecord env s.sid h1],
        seen := s.seen ++ [h1.url], sid := s.sid + 1 }
    ∧ h1.url ∈ (processQuery env mode retrieved selected s q1).seen
    ∧ (∀ s2 : RunState, h2.url ∈ s2.seen →
        processQuery env mode retrieved selected s2 q2 =
          webIngestQuery env mode s2 q2.2)
    ∧ (∀ (s3 : RunState) (q3 : String × String),
        s3.seen ⊆ (processQuery env mode retrieved selected s3 q3).seen)
    ∧ processQuery env mode retrieved selected
        (processQuery env mode retrieved selected s q1) q2 =
      webIngestQuery env mode
        (processQuery env mode retrieved selected s q1) q2.2 := by
  have hreuse := processQuery_reuse env mode retrieved selected s q1 vid1
    cands1 h1 hsel1 hv1 hret1 hc1 hnew
  have hmem : h1.url ∈ (processQuery env mode retrieved selected s q1).seen := by
    rw [hreuse]
    simp
  have hfall : ∀ s2 : RunState, h2.url ∈ s2.seen →
      processQuery env mode retrieved selected s2 q2 =
        webIngestQuery env mode s2 q2.2 := by
    intro s2 hseen
    exact processQuery_reuse_blocked env mode retrieved selected s2 q2 vid2
      cands2 h2 hsel2 hv2 hret2 hc2 hseen
  refine ⟨hreuse, hmem, hfall, ?_, ?_⟩
  · intro s3 q3
    exact processQuery_seen_mono env mode retrieved selected s3 q3
  · exact hfall _ (by rw [hurl]; exact hmem)

/-- Concrete instantiation of `reuse_gate_at_most_one`: the judge names
the same stored candidate (same URL) for Q1 and Q2; Q1 reuses it and Q2
on the post-Q1 state falls through to web ingestion. -/
theorem reuse_gate_at_most_one_witness :
    processQuery trivEnv "quick" sampleRetrieved sampleSelected
        (processQuery trivEnv "quick" sampleRetrieved sampleSelected
          initState ("Q1", "t1")) ("Q2", "t2") =
      webIngestQuery trivEnv "quick"
        (processQuery trivEnv "quick" sampleRetrieved sampleSelected
          initState ("Q1", "t1")) "t2" :=
  (reuse_gate_at_most_one trivEnv "quick" sampleRetrieved sampleSelected
    initState ("Q1", "t1") ("Q2", "t2") "VS_1" "VS_1"
    [("VS_1", sampleHit)] [("VS_1", sampleHit)] sampleHit sampleHit
    rfl (by decide) rfl rfl rfl (by decide) rfl rfl rfl
    (by decide)).2.2.2.2

/-- C10: when the judge's reply names no usable candidate for a query —
the query had no surviving candidates at all, or the named id is not
among that query's reranked candidates — the controller neither raises
nor reuses: processing the query is exactly fresh web ingestion from the
unchanged state (in particular the reuse branch leaves the summaries and
the seen set untouched). -/
theorem judge_unknown_candidate_falls_through (env : Env) (mode : String)
    (retrieved : List (String × List (String × Hit)))
    (selected : List (String × Option String))
    (s : RunState) (q : String × String) :
    (alookup retrieved q.1 = none →
      processQuery env mode retrieved selected s q =
        webIngestQuery env mode s q.2)
    ∧ (∀ (vid : String) (cands : List (String × Hit)),
        getSelected selected q.1 = some vid →
        alookup retrieved q.1 = some cands →
        alookup cands vid = none →
        processQuery env mode retrieved selected s q =
          webIngestQuery env mode s q.2) := by
  constructor
  · intro hnone
    exact processQuery_not_retrieved env mode retrieved selected s q hnone
  · intro vid cands hsel hret hc
    exact processQuery_no_candidate env mode retrieved selected s q vid
      cands hsel hret hc

/-- Concrete instantiation of `judge_unknown_candidate_falls_through`:
the judge names "VS_9" for a query whose only candidate key is "VS_1". -/
theorem judge_unknown_candidate_falls_through_witness :
    processQuery trivEnv "quick" [("Q1", [("VS_1", sampleHit)])]
        [("Q1", some "VS_9")] initState ("Q1", "t") =
      webIngestQuery trivEnv "quick" initState "t" :=
  (judge_unknown_candidate_falls_through trivEnv "quick"
    [("Q1", [("VS_1", sampleHit)])] [("Q1", some "VS_9")] initState
    ("Q1", "t")).2 "VS_9" [("VS_1", sampleHit)] rfl rfl rfl

/-! ## Theorems about the vector store -/

theorem upsert_preserves_count (s : VectorStore) (rs : List VSRecord)
    (h : s.index.length = s.metadata.length) :
    (s.upsert rs).index.length = (s.upsert rs).metadata.length := by
  unfold VectorStore.upsert
  cases he : rs.isEmpty <;> simp [he, h]

theorem upsert_foldl_count :
    ∀ (batches : List (List VSRecord)) (s : VectorStore),
      s.index.length = s.metadata.length →
      ((batches.foldl VectorStore.upsert s).index.length =
        (batches.foldl VectorStore.upsert s).metadata.length) := by
  intro batches
  induction batches with
  | nil => intro s h; exact h
  | cons b rest ih =>
    intro s h
    rw [List.foldl_cons]
    exact ih _ (upsert_preserves_count s b h)

/-- C3: each `upsert` appends the batch's embeddings to the index and the
same records to the metadata list, preserving
`index.count == metadata.count`; the invariant therefore holds after any
sequence of `upsert` calls from a fresh store; at load time a mismatch
between the reloaded counts is the fatal error, and a successful load
returns exactly the reloaded data — never an auto-repaired store. -/
theorem vector_store_count_invariant :
    (∀ (s : VectorStore) (rs : List VSRecord), rs.isEmpty = false →
      (s.upsert rs).index = s.index ++ rs.map (fun r => r.embedding)
      ∧ (s.upsert rs).metadata = s.metadata ++ rs)
    ∧ (∀ (s : VectorStore) (rs : List VSRecord),
        s.index.length = s.metadata.length →
        (s.upsert rs).index.length = (s.upsert rs).metadata.length)
    ∧ (∀ batches : List (List VSRecord),
        (batches.foldl VectorStore.upsert
          VectorStore.emptyStore).index.length =
        (batches.foldl VectorStore.upsert
          VectorStore.emptyStore).metadata.length)
    ∧ (∀ (di : Option (List (List Float))) (dm : Option (List VSRecord)),
        (di.getD []).length ≠ (dm.getD []).length →
        VectorStore.load_or_create di dm =
          .error "FAISS index and metadata out of sync.")
    ∧ (∀ (di : Option (List (List Float))) (dm : Option (List VSRecord))
        (st : VectorStore),
        VectorStore.load_or_create di dm = .ok st →
        st.index = di.getD [] ∧ st.metadata = dm.getD []
        ∧ st.index.length = st.metadata.length) := by
  refine ⟨?_, upsert_preserves_count, ?_, ?_, ?_⟩
  · intro s rs h
    unfold VectorStore.upsert
    rw [h]
    exact ⟨rfl, rfl⟩
  · intro batches
    exact upsert_foldl_count batches VectorStore.emptyStore rfl
  · intro di dm h
    unfold VectorStore.load_or_create
    rw [if_pos h]
  · intro di dm st h
    unfold VectorStore.load_or_create at h
    by_cases hc : (di.getD []).length ≠ ((dm.getD [] : List VSRecord)).length
    · rw [if_pos hc] at h
      simp at h
    · rw [if_neg hc] at h
      obtain rfl := (Except.ok.inj h).symm
      exact ⟨rfl, rfl, not_ne_iff.mp hc⟩

/-- Concrete instantiation of `vector_store_count_invariant`: one upsert
of one record onto the fresh store keeps the counts equal. -/
theorem vector_store_count_invariant_witness :
    (VectorStore.emptyStore.upsert
        [{ embedding := [], query_text := "q", summary := "s",
           url := none }]).index.length =
      (VectorStore.emptyStore.upsert
        [{ embedding := [], query_text := "q", summary := "s",
           url := none }]).metadata.length :=
  vector_store_count_invariant.2.1 VectorStore.emptyStore
    [{ embedding := [], query_text := "q", summary := "s", url := none }]
    rfl

/-! ## Theorems about the controller's analysis phase -/

/-- C9: with fewer than 2 EvidenceRecords after all rounds the controller
performs no analytic external call — no agreement detection (hence no
scoring), no conflict detection or resolution, no rewrite, no report
generation or evaluation — and returns early with the bare summaries and
`None` report, PDF and evaluation; with 2 or more records the agreement
detector is invoked; and `run_pipeline` as a whole returns that early
empty result whenever discovery produced fewer than 2 records. -/
theorem early_return_below_two_records :
    (∀ (aenv : AnalysisEnv) (uq : String) (plan : Plan)
        (summaries : List Record), summaries.length < 2 →
      analysisPhase aenv uq plan summaries =
        ([], .ok { records := summaries, report_text := none,
                   pdf_path := none, evalReport := none }))
    ∧ (∀ (aenv : AnalysisEnv) (uq : String) (plan : Plan)
        (summaries : List Record), 2 ≤ summaries.length →
        PhaseCall.agreement ∈ (analysisPhase aenv uq plan summaries).1)
    ∧ (∀ (env : Env) (aenv : AnalysisEnv) (uq mode : String)
        (cfg : Nat × Nat), alookup MODES mode = some cfg →
        (runDiscovery env mode uq (env.plan uq)
          cfg.1 cfg.2).summaries.length < 2 →
        run_pipeline env aenv uq mode =
          .ok ([], { records := (runDiscovery env mode uq (env.plan uq)
                       cfg.1 cfg.2).summaries,
                     report_text := none, pdf_path := none,
                     evalReport := none })) := by
  have h1 : ∀ (aenv : AnalysisEnv) (uq : String) (plan : Plan)
      (summaries : List Record), summaries.length < 2 →
      analysisPhase aenv uq plan summaries =
        ([], .ok { records := summaries, report_text := none,
                   pdf_path := none, evalReport := none }) := by
    intro aenv uq plan summaries h
    unfold analysisPhase
    rw [if_pos h]
  refine ⟨h1, ?_, ?_⟩
  · intro aenv uq plan summaries h
    unfold analysisPhase
    rw [if_neg (by omega : ¬ summaries.length < 2)]
    split
    · simp
    · simp
  · intro env aenv uq mode cfg hcfg hlen
    unfold run_pipeline
    split
    · rename_i hn
      rw [hcfg] at hn
      simp at hn
    · rename_i cfg0 hc0
      rw [hcfg] at hc0
      cases Option.some.inj hc0
      simp only [h1 aenv uq (env.plan uq)
        (runDiscovery env mode uq (env.plan uq) cfg.1 cfg.2).summaries hlen]

/-- Concrete instantiation of `early_return_below_two_records`: zero
records short-circuit the analysis phase. -/
theorem early_return_below_two_records_witness :
    analysisPhase trivAEnv "question" { goal := "g", dimensions := [] }
        [] =
      ([], .ok { records := [], report_text := none, pdf_path := none,
                 evalReport := none }) :=
  early_return_below_two_records.1 trivAEnv "question"
    { goal := "g", dimensions := [] } [] (by decide)

/-! ## Theorems about the intent selector -/

/-- C7 counterexample: an unparseable equivalence-judge reply is not
fatal — for two subqueries `select_best_intents` returns the all-None
fail-safe map (treat every query as "no match") instead of raising. -/
theorem select_best_intents_malformed_not_fatal :
    select_best_intents_post 2 none = [("Q1", none), ("Q2", none)] := by
  rfl

theorem alookup_map_none (f : Nat → String) :
    ∀ (l : List Nat) (k : String) (o : Option String),
      alookup (l.map (fun i => (f i, none))) k = some o → o = none := by
  intro l
  induction l with
  | nil => intro k o h; simp [alookup] at h
  | cons i rest ih =>
    intro k o h
    simp only [List.map_cons, alookup] at h
    by_cases hk : f i = k
    · rw [if_pos hk] at h
      exact (Option.some.inj h).symm
    · rw [if_neg hk] at h
      exact ih k o h

/-- C7 amended: a malformed (unparseable) reply from the equivalence
judge is not fatal for the run: `select_best_intents` fail-safes to "no
reuse" — every key of the returned map carries `None` — and the
controller's reuse-or-ingest body sends a query whose selected intent is
`None` straight to fresh web ingestion. -/
theorem select_best_intents_malformed_fail_safe :
    (∀ (n : Nat) (k : String) (o : Option String),
      alookup (select_best_intents_post n none) k = some o → o = none)
    ∧ (∀ (env : Env) (mode : String)
        (retrieved : List (String × List (String × Hit)))
        (selected : List (String × Option String))
        (s : RunState) (q : String × String),
        getSelected selected q.1 = none →
        processQuery env mode retrieved selected s q =
          webIngestQuery env mode s q.2) := by
  constructor
  · intro n k o h
    exact alookup_map_none (fun i => "Q" ++ toString (i + 1))
      (List.range n) k o h
  · intro env mode retrieved selected s q hsel
    exact processQuery_selected_none env mode retrieved selected s q hsel

/-- Concrete instantiation of `select_best_intents_malformed_fail_safe`:
with no judge output at all the query goes to web ingestion. -/
theorem select_best_intents_malformed_fail_safe_witness :
    processQuery trivEnv "quick" [] [] initState ("Q1", "t") =
      webIngestQuery trivEnv "quick" initState "t" :=
  select_best_intents_malformed_fail_safe.2 trivEnv "quick" [] []
    initState ("Q1", "t") rfl

end ResearchAgent
